import Mathlib

/-!
Shallow embedding of cachejs (src/cache.js, version 1.0.0) and verification
of its specification claims.

Modelling conventions:
* JavaScript values stored in the cache are modelled by `JSVal`; JS truthiness
  by `truthy`.
* `setTimeout` / `clearTimeout` are modelled by an explicit list of armed
  timers carried in the cache state together with a counter supplying fresh
  timeout ids.  Firing a timer is an explicit step (`MemoryCache.fireTimer`).
* `trigger(event, key, data)` dispatches listener callbacks asynchronously;
  what the claims call "fires event E" is the call to `trigger`, which we
  record in an event log (`events`) carried in the state.
* A thrown JS `TypeError` (reading a property of `undefined`) is modelled by
  `Except.error ()`; operations return the state as mutated up to the point
  of the throw, as in JS.
* `MemoryCache.remove` uses `delete _storage[i]`, which leaves a hole in the
  array (length unchanged); `_storage` is therefore a `List (Option MEntry)`,
  `none` being a hole.  Scanning code reads `_storage[i].key`, which throws
  on a hole.
-/

/-- A JavaScript value, as far as the cache is concerned.  The cache never
interprets values, so a small universe with the falsy/truthy distinction is
enough. -/
inductive JSVal where
  | vnull
  | vundefined
  | vbool (b : Bool)
  | vnum (n : Int)
  | vstr (s : String)
  deriving DecidableEq, Repr

/-- JavaScript truthiness of a `JSVal` (NaN is not modelled). -/
def truthy : JSVal → Bool
  | .vnull => false
  | .vundefined => false
  | .vbool b => b
  | .vnum n => n != 0
  | .vstr s => s != ""

/-- The event channels of cache.js together with their payload, in the order
the source triggers them.  `purge` carries no payload (the source calls
`trigger(EVENT_PURGE)` with no key/data). -/
inductive Ev where
  | read (key : String) (value : JSVal)
  | write (key : String) (value : JSVal)
  | writeCreate (key : String) (value : JSVal)
  | writeUpdate (key : String) (value : JSVal)
  | remove (key : String) (value : JSVal)
  | purge
  | garbage (key : String) (value : JSVal)
  deriving DecidableEq, Repr

/-- An armed `setTimeout` created by `Cache.scheduleStorageGarbage`: its id,
the key and value captured by the callback closure, and the delay in
milliseconds. -/
structure Timer where
  id : Nat
  key : String
  value : JSVal
  delay : Int
  deriving DecidableEq, Repr

/-- Cache.scheduleStorageGarbage: arms a timeout when `lifetime > 0` and
returns its id, else returns `undefined` (`none`).  Fresh ids come from the
counter. -/
def scheduleGarbage (timers : List Timer) (nextId : Nat) (key : String)
    (value : JSVal) (lifetime : Int) : Option Nat × List Timer × Nat :=
  if 0 < lifetime then
    (some nextId,
     timers ++ [{ id := nextId, key := key, value := value, delay := lifetime }],
     nextId + 1)
  else (none, timers, nextId)

/-- Cache.cancelStorageGarbage: `clearTimeout` when the handle is a number
(`some`), a no-op on `undefined` (`none`). -/
def cancelGarbage (timers : List Timer) : Option Nat → List Timer
  | some n => timers.filter (fun t => t.id != n)
  | none => timers

/-- Cache.convertLifetime: `lifetime * 1000` when the argument is a number,
else the instance default (already in milliseconds). -/
def convertLifetime (dflt : Int) : Option Int → Int
  | some l => l * 1000
  | none => dflt

/-- The `_size` initialisation of the Cache constructor:
`(typeof size == 'number' && size > 1) ? size : 5`. -/
def initSize : Option Int → Int
  | some n => if 1 < n then n else 5
  | none => 5

/-- The `_lifetime` initialisation of the Cache constructor:
`(typeof lifetime == 'number' && lifetime > 0) ? (lifetime * 1000) : 0`. -/
def initLifetime : Option Int → Int
  | some l => if 0 < l then l * 1000 else 0
  | none => 0

/-- One entry of the MemoryCache `_storage` array. -/
structure MEntry where
  key : String
  value : JSVal
  lifetime : Int
  timeoutID : Option Nat
  deriving DecidableEq, Repr

/-- The full state of a MemoryCache instance: configuration, the `_storage`
array (with `none` for holes left by `delete`), the armed timers, the fresh
timeout-id counter and the log of triggered events. -/
structure MemState where
  size : Int
  lifetime : Int
  storage : List (Option MEntry)
  timers : List Timer
  nextId : Nat
  events : List Ev
  deriving DecidableEq, Repr

/-- The MemoryCache constructor: configuration fallback for size and
lifetime, empty storage. -/
def mkMemory (size lifetime : Option Int) : MemState :=
  { size := initSize size, lifetime := initLifetime lifetime,
    storage := [], timers := [], nextId := 0, events := [] }

/-- The scan `for (i...) if (_storage[i].key === key)` shared by has, read,
write and setCacheLifetime: returns the part before the first match, the
matching entry and the part after it; `.ok none` when no entry matches;
`.error ()` when a hole is hit first (`_storage[i].key` throws on
`undefined`). -/
def findEntry (key : String) :
    List (Option MEntry) →
      Except Unit (Option (List (Option MEntry) × MEntry × List (Option MEntry)))
  | [] => .ok none
  | none :: _ => .error ()
  | some e :: rest =>
    if e.key = key then .ok (some ([], e, rest))
    else
      match findEntry key rest with
      | .error _ => .error ()
      | .ok none => .ok none
      | .ok (some (pre, f, post)) => .ok (some (some e :: pre, f, post))

/-- MemoryCache.count: `_storage.length` (holes included, as in JS). -/
def MemoryCache.count (s : MemState) : Nat :=
  s.storage.length

/-- MemoryCache.has. -/
def MemoryCache.has (s : MemState) (key : String) : Except Unit Bool :=
  match findEntry key s.storage with
  | .error _ => .error ()
  | .ok none => .ok false
  | .ok (some _) => .ok true

/-- The value scan of MemoryCache.hasValue (strict equality on values,
throws on a hole). -/
def hasValueGo (value : JSVal) : List (Option MEntry) → Except Unit Bool
  | [] => .ok false
  | none :: _ => .error ()
  | some e :: rest => if e.value = value then .ok true else hasValueGo value rest

/-- MemoryCache.hasValue. -/
def MemoryCache.hasValue (s : MemState) (value : JSVal) : Except Unit Bool :=
  hasValueGo value s.storage

/-- MemoryCache.read.  `defaultValue = none` models an omitted/undefined
argument, in which case a miss returns JS `null`.  `silent = true` models
`options.silent == true`; any other options shape lets the read event fire. -/
def MemoryCache.read (s : MemState) (key : String) (defaultValue : Option JSVal)
    (silent : Bool) : MemState × Except Unit JSVal :=
  match findEntry key s.storage with
  | .error _ => (s, .error ())
  | .ok (some (_, e, _)) =>
    (if silent then s else { s with events := s.events ++ [Ev.read key e.value] },
     .ok e.value)
  | .ok none => (s, .ok (defaultValue.getD JSVal.vnull))

/-- The eviction loop of MemoryCache.write:
`while (_storage.length >= this.getSize()) _storage.pop();`.
Returns `none` when the loop never exits (size at most 0, as reachable after
`setSize`), `some` of the remaining storage otherwise. -/
def evictLoop (size : Int) : List (Option MEntry) → Option (List (Option MEntry))
  | [] => if size ≤ (0 : Int) then none else some []
  | a :: t =>
    if size ≤ (((a :: t).length : Nat) : Int) then evictLoop size (a :: t).dropLast
    else some (a :: t)
termination_by l => l.length
decreasing_by
  simp only [List.length_dropLast, List.length_cons]
  omega

/-- MemoryCache.write.  Returns `none` when the eviction loop diverges,
otherwise the new state and `.ok` / `.error` for normal return / thrown
TypeError. -/
def MemoryCache.write (s : MemState) (key : String) (value : JSVal)
    (lifetime : Option Int) (silent : Bool) :
    Option (MemState × Except Unit Unit) :=
  match findEntry key s.storage with
  | .error _ => some (s, .error ())
  | .ok (some (pre, e, post)) =>
    -- update branch: cancel the old timer, keep the stored lifetime unless
    -- the argument is a number, replace the value, rearm
    let timers1 := cancelGarbage s.timers e.timeoutID
    let newLifetime := match lifetime with
      | some l => l * 1000
      | none => e.lifetime
    let sc := scheduleGarbage timers1 s.nextId key value newLifetime
    let e2 := { e with value := value, lifetime := newLifetime, timeoutID := sc.1 }
    some ({ s with storage := pre ++ some e2 :: post,
                   timers := sc.2.1, nextId := sc.2.2,
                   events := s.events ++
                     (if silent then []
                      else [Ev.write key value, Ev.writeUpdate key value]) },
          .ok ())
  | .ok none =>
    -- create branch: convert the lifetime, evict from the tail while full,
    -- unshift the new entry
    let L := convertLifetime s.lifetime lifetime
    match evictLoop s.size s.storage with
    | none => none
    | some l2 =>
      let sc := scheduleGarbage s.timers s.nextId key value L
      some ({ s with
               storage := some { key := key, value := value, lifetime := L,
                                 timeoutID := sc.1 } :: l2,
               timers := sc.2.1, nextId := sc.2.2,
               events := s.events ++
                 (if silent then []
                  else [Ev.write key value, Ev.writeCreate key value]) },
            .ok ())

/-- The removal scan of MemoryCache.remove: `delete _storage[i]` on each
match (leaving a hole, no break), triggering the remove event unless silent;
throws on a pre-existing hole, keeping the mutations made so far.  Returns
the new storage, the triggered events and whether the scan completed. -/
def removeGo (key : String) (silent : Bool) :
    List (Option MEntry) → List (Option MEntry) × List Ev × Bool
  | [] => ([], [], true)
  | none :: rest => (none :: rest, [], false)
  | some e :: rest =>
    if e.key = key then
      let r := removeGo key silent rest
      (none :: r.1, (if silent then [] else [Ev.remove key e.value]) ++ r.2.1, r.2.2)
    else
      let r := removeGo key silent rest
      (some e :: r.1, r.2.1, r.2.2)

/-- MemoryCache.remove.  Note: no call to cancelStorageGarbage anywhere in
the source of remove. -/
def MemoryCache.remove (s : MemState) (key : String) (silent : Bool) :
    MemState × Except Unit Unit :=
  let r := removeGo key silent s.storage
  ({ s with storage := r.1, events := s.events ++ r.2.1 },
   if r.2.2 then .ok () else .error ())

/-- MemoryCache.purge: `_storage = []`, then one purge event unless silent.
No call to cancelStorageGarbage anywhere in the source of purge. -/
def MemoryCache.purge (s : MemState) (silent : Bool) : MemState :=
  let s1 := { s with storage := [] }
  if silent then s1 else { s1 with events := s1.events ++ [Ev.purge] }

/-- MemoryCache.setCacheLifetime: convert, then on the first matching entry
cancel the old timer, store the converted lifetime and rearm with it;
break.  No events. -/
def MemoryCache.setCacheLifetime (s : MemState) (key : String)
    (lifetime : Option Int) : MemState × Except Unit Unit :=
  let L := convertLifetime s.lifetime lifetime
  match findEntry key s.storage with
  | .error _ => (s, .error ())
  | .ok none => (s, .ok ())
  | .ok (some (pre, e, post)) =>
    let timers1 := cancelGarbage s.timers e.timeoutID
    let sc := scheduleGarbage timers1 s.nextId key e.value L
    ({ s with storage := pre ++ some { e with lifetime := L, timeoutID := sc.1 } :: post,
              timers := sc.2.1, nextId := sc.2.2 },
     .ok ())

/-- Firing an armed timer: the callback of scheduleStorageGarbage runs
`self.remove(key); self.trigger(EVENT_GARBAGE, key, value);` with the key and
value captured at scheduling time.  The timer is disarmed by firing.  If
`remove` throws, the garbage trigger is not reached. -/
def MemoryCache.fireTimer (s : MemState) (tid : Nat) : MemState :=
  match s.timers.find? (fun t => t.id == tid) with
  | none => s
  | some t =>
    match MemoryCache.remove { s with timers := s.timers.filter (fun u => u.id != tid) }
        t.key false with
    | (s2, .ok _) => { s2 with events := s2.events ++ [Ev.garbage t.key t.value] }
    | (s2, .error _) => s2

/-- Cache.setSize: stores the argument with no validation. -/
def setSize (s : MemState) (n : Int) : MemState :=
  { s with size := n }

/-- Cache.setLifetime: stores `lifetime * 1000` with no validation. -/
def setLifetime (s : MemState) (t : Int) : MemState :=
  { s with lifetime := t * 1000 }

/-- An operation on a MemoryCache instance, including the firing of an armed
expiry timer. -/
inductive MOp where
  | write (key : String) (value : JSVal) (lifetime : Option Int) (silent : Bool)
  | read (key : String) (defaultValue : Option JSVal) (silent : Bool)
  | remove (key : String) (silent : Bool)
  | purge (silent : Bool)
  | setCacheLifetime (key : String) (lifetime : Option Int)
  | fire (tid : Nat)
  deriving DecidableEq, Repr

/-- Run one operation for its state effect.  A diverging write (only possible
with a non-positive size, which the constructor never produces) yields no
observable state; we keep the previous state in that case. -/
def MemoryCache.runOp (s : MemState) : MOp → MemState
  | .write k v l si =>
    match MemoryCache.write s k v l si with
    | some (s2, _) => s2
    | none => s
  | .read k d si => (MemoryCache.read s k d si).1
  | .remove k si => (MemoryCache.remove s k si).1
  | .purge si => MemoryCache.purge s si
  | .setCacheLifetime k l => (MemoryCache.setCacheLifetime s k l).1
  | .fire tid => MemoryCache.fireTimer s tid

/-- Run a sequence of operations. -/
def MemoryCache.runOps (s : MemState) (ops : List MOp) : MemState :=
  ops.foldl MemoryCache.runOp s

example : MemoryCache.count (mkMemory none none) = 0 := by decide

/-!
The StorageCache backend (src/cache.js version 1.0.0).  The injected Storage
collaborator is modelled as an ordered association list: `setItem` replaces
in place when the key exists and appends otherwise, `key(i)` enumerates by
position, `removeItem` deletes the key.  The JSON envelope
`{value, lifetime, createdAt, timeoutID}` is modelled structurally; the
serialize/parse round trip is the identity on well-formed envelopes, and a
serialized envelope is a non-empty string, hence truthy.
-/

/-- The persisted JSON envelope of one StorageCache entry (version 1.0.0:
no originalKey field). -/
structure Envelope where
  value : JSVal
  lifetime : Int
  createdAt : Int
  timeoutID : Option Nat
  deriving DecidableEq, Repr

/-- Storage.getItem followed by JSON.parse: the first entry stored under the
key, if any. -/
def Store.getItem (items : List (String × Envelope)) (k : String) : Option Envelope :=
  (items.find? (fun p => p.1 == k)).map (fun p => p.2)

/-- Storage.setItem: replace in place when the key exists, append otherwise. -/
def Store.setItem (items : List (String × Envelope)) (k : String) (e : Envelope) :
    List (String × Envelope) :=
  if items.any (fun p => p.1 == k) then
    items.map (fun p => if p.1 == k then (k, e) else p)
  else items ++ [(k, e)]

/-- Storage.removeItem. -/
def Store.removeItem (items : List (String × Envelope)) (k : String) :
    List (String × Envelope) :=
  items.filter (fun p => p.1 != k)

lemma Store.length_setItem_of_any (items : List (String × Envelope)) (k : String)
    (e : Envelope) (h : items.any (fun p => p.1 == k) = true) :
    (Store.setItem items k e).length = items.length := by
  simp [Store.setItem, h]

lemma length_filter_lt_of_mem {α : Type} {l : List α} {p : α → Bool} {x : α}
    (hx : x ∈ l) (hpx : p x = false) : (l.filter p).length < l.length := by
  induction l with
  | nil => cases hx
  | cons a t ih =>
    rcases List.mem_cons.1 hx with rfl | hxt
    · rw [List.filter_cons, hpx, if_neg (by decide : ¬ (false = true))]
      have hle := List.length_filter_le p t
      simp only [List.length_cons]
      omega
    · rw [List.filter_cons]
      by_cases hpa : p a = true
      · rw [if_pos hpa]
        have := ih hxt
        simp only [List.length_cons]
        omega
      · rw [if_neg hpa]
        have hle := List.length_filter_le p t
        simp only [List.length_cons]
        omega

/-- The state of a StorageCache instance: configuration, the underlying
store's contents, the armed timers, the fresh timeout-id counter and the
event log. -/
structure SState where
  size : Int
  lifetime : Int
  items : List (String × Envelope)
  timers : List Timer
  nextId : Nat
  events : List Ev
  deriving DecidableEq, Repr

/-- StorageCache.count: `_storage.length`. -/
def StorageCache.count (s : SState) : Nat := s.items.length

/-- StorageCache.has: scan of `_storage.key(i)` for the raw key (version
1.0.0 uses the key itself as store key). -/
def StorageCache.has (s : SState) (key : String) : Bool :=
  s.items.any (fun p => p.1 == key)

/-- StorageCache.read: `getItem`, truthiness test of the serialized string
(a stored envelope is always truthy), parse, optional read event, else the
defaultValue with `null` for an omitted one. -/
def StorageCache.read (s : SState) (key : String) (defaultValue : Option JSVal)
    (silent : Bool) : SState × JSVal :=
  match Store.getItem s.items key with
  | some item =>
    (if silent then s else { s with events := s.events ++ [Ev.read key item.value] },
     item.value)
  | none => (s, defaultValue.getD JSVal.vnull)

/-- StorageCache.remove: `var value = this.read(key, undefined, true)` — the
literal `true` is passed as the options object, whose `.silent` property is
`undefined`, so the inner read is NOT silent and fires a read event on a hit.
The entry is removed only when the read value is truthy. -/
def StorageCache.remove (s : SState) (key : String) (silent : Bool) : SState :=
  let r := StorageCache.read s key none false
  if truthy r.2 then
    let s2 := { r.1 with items := Store.removeItem r.1.items key }
    if silent then s2 else { s2 with events := s2.events ++ [Ev.remove key r.2] }
  else r.1

/-- The eviction loop of StorageCache.write:
`while (_storage.length >= this.getSize()) _storage.removeItem(_storage.key(_storage.length - 1));`.
`none` models the loop never exiting (non-positive size). -/
def sEvictLoop (size : Int) : List (String × Envelope) → Option (List (String × Envelope))
  | [] => if size ≤ (0 : Int) then none else some []
  | a :: t =>
    if size ≤ (((a :: t).length : Nat) : Int) then
      sEvictLoop size (Store.removeItem (a :: t) (((a :: t).getLast (by simp)).1))
    else some (a :: t)
termination_by l => l.length
decreasing_by
  exact length_filter_lt_of_mem (List.getLast_mem (by simp)) (by simp)

/-- StorageCache.write. -/
def StorageCache.write (s : SState) (now : Int) (key : String) (value : JSVal)
    (lifetime : Option Int) (silent : Bool) : Option SState :=
  if s.items.any (fun p => p.1 == key) then
    -- update branch, entered when the key scan finds the raw key
    match Store.getItem s.items key with
    | none => some s
    | some item =>
      let timers1 := cancelGarbage s.timers item.timeoutID
      let L := match lifetime with
        | some l => l * 1000
        | none => item.lifetime
      let sc := scheduleGarbage timers1 s.nextId key value L
      let item2 := { item with value := value, lifetime := L, createdAt := now,
                               timeoutID := sc.1 }
      some { s with items := Store.setItem s.items key item2,
                    timers := sc.2.1, nextId := sc.2.2,
                    events := s.events ++
                      (if silent then []
                       else [Ev.write key value, Ev.writeUpdate key value]) }
  else
    let L := convertLifetime s.lifetime lifetime
    match sEvictLoop s.size s.items with
    | none => none
    | some items2 =>
      let sc := scheduleGarbage s.timers s.nextId key value L
      some { s with
              items := Store.setItem items2 key
                { value := value, lifetime := L, createdAt := now, timeoutID := sc.1 },
              timers := sc.2.1, nextId := sc.2.2,
              events := s.events ++
                (if silent then []
                 else [Ev.write key value, Ev.writeCreate key value]) }

/-- StorageCache.purge: `_storage.clear()`, then one purge event unless
silent.  No timer cancellation. -/
def StorageCache.purge (s : SState) (silent : Bool) : SState :=
  let s1 := { s with items := [] }
  if silent then s1 else { s1 with events := s1.events ++ [Ev.purge] }

/-- The construction-time recovery loop of StorageCache (the source's
`this.initialize`): iterate `i` over `_storage.length` (which shrinks when an
expired entry is removed, so entries can be skipped), parse each envelope;
an entry with positive lifetime is removed silently when expired, otherwise
its `createdAt` is overwritten with the current time BEFORE the remaining
delay `item.lifetime - (currentTime - item.createdAt)` is computed, and a
timer is armed with that delay. -/
def StorageCache.initLoop (now : Int) (s : SState) (i : Nat) : SState :=
  if h : i < s.items.length then
    match Store.getItem s.items (s.items.get ⟨i, h⟩).1 with
    | none => StorageCache.initLoop now s (i + 1)
    | some item =>
      if 0 < item.lifetime then
        if item.createdAt + item.lifetime ≤ now then
          StorageCache.initLoop now
            { s with items := Store.removeItem s.items (s.items.get ⟨i, h⟩).1 } (i + 1)
        else
          let item1 := { item with createdAt := now }
          let sc := scheduleGarbage s.timers s.nextId (s.items.get ⟨i, h⟩).1 item1.value
                      (item1.lifetime - (now - item1.createdAt))
          StorageCache.initLoop now
            { s with items := Store.setItem s.items (s.items.get ⟨i, h⟩).1
                       { item1 with timeoutID := sc.1 },
                     timers := sc.2.1, nextId := sc.2.2 } (i + 1)
      else StorageCache.initLoop now s (i + 1)
  else s
termination_by s.items.length - i
decreasing_by
  all_goals first
    | omega
    | (have hle := List.length_filter_le
         (fun p => p.1 != (s.items.get ⟨i, h⟩).1) s.items
       simp only [Store.removeItem]
       omega)
    | (rw [Store.length_setItem_of_any s.items (s.items.get ⟨i, h⟩).1 _
         (List.any_eq_true.2 ⟨s.items.get ⟨i, h⟩, List.get_mem s.items i h, by simp⟩)]
       omega)

/-- The StorageCache constructor over an injected store: configuration
fallback, then the recovery loop (the source runs `this.initialize()`
whenever a storage collaborator is passed, which SessionStorageCache and
LocalStorageCache always do). -/
def mkStorage (size lifetime : Option Int) (items : List (String × Envelope))
    (now : Int) : SState :=
  StorageCache.initLoop now
    { size := initSize size, lifetime := initLifetime lifetime,
      items := items, timers := [], nextId := 0, events := [] } 0

/-!
Namespacing model.  Version 1.0.0 of src/cache.js has no namespace support:
its constructors take `(size, lifetime)` only and the raw key is used as the
store key.  The namespacing that claim C7 describes exists only in the spec
(sections 3, 4.3 and 6), so it is modelled here from the spec's words.
Strings are modelled as lists of characters (concatenation is list append).
-/

/-- A string, as a list of characters, for the namespacing model. -/
abbrev NsStr := List Char

/-- Modelled from the spec: the store-key mapping of section 3,
`storeKey = namespace + "." + key` when the namespace is non-empty, else
`storeKey = key`. -/
def storeKey (ns key : NsStr) : NsStr :=
  if ns = [] then key else ns ++ ['.'] ++ key

/-- Modelled from the spec: recovering the key from a store key inverts the
mapping, stripping `namespace + "."` when the namespace is non-empty. -/
def keyFromStoreKey (ns storeK : NsStr) : NsStr :=
  if ns = [] then storeK else storeK.drop (ns.length + 1)

/-- Modelled from the spec: membership of a store key in an instance's
namespace, by exact prefix match on `namespace + "."` (the spec's stated
intent for key matching; an empty namespace matches everything). -/
def inNamespace (ns storeK : NsStr) : Bool :=
  if ns = [] then true else (ns ++ ['.']).isPrefixOf storeK

/-- Modelled from the spec: the persisted envelope of section 6, with the
`originalKey` recorded for namespaced instances. -/
structure NsEnvelope where
  value : JSVal
  originalKey : NsStr
  lifetime : Int
  createdAt : Int
  deriving DecidableEq, Repr

/-- Set-or-replace on the shared underlying store of the namespacing model. -/
def NsStore.setItem (items : List (NsStr × NsEnvelope)) (k : NsStr)
    (e : NsEnvelope) : List (NsStr × NsEnvelope) :=
  if items.any (fun p => p.1 == k) then
    items.map (fun p => if p.1 == k then (k, e) else p)
  else items ++ [(k, e)]

/-- Modelled from the spec: a namespaced write stores the envelope under the
namespaced store key. -/
def NsCache.write (ns : NsStr) (items : List (NsStr × NsEnvelope)) (key : NsStr)
    (value : JSVal) (lifetime createdAt : Int) : List (NsStr × NsEnvelope) :=
  NsStore.setItem items (storeKey ns key)
    { value := value, originalKey := key, lifetime := lifetime, createdAt := createdAt }

/-- Modelled from the spec: `has` compares the instance's namespaced store
key against the store's keys. -/
def NsCache.has (ns : NsStr) (items : List (NsStr × NsEnvelope)) (key : NsStr) : Bool :=
  items.any (fun p => p.1 == storeKey ns key)

/-- Modelled from the spec: `readAll` returns the value of every store entry
in the instance's namespace, keyed by original key. -/
def NsCache.readAll (ns : NsStr) (items : List (NsStr × NsEnvelope)) :
    List (NsStr × JSVal) :=
  items.filterMap (fun p =>
    if inNamespace ns p.1 then some (p.2.originalKey, p.2.value) else none)

/-- Modelled from the spec: `purge` as the reference implementation behaves
(section 4.1 flags it): the calling instance's namespace is ignored and the
ENTIRE underlying store is cleared. -/
def NsCache.purge (_ns : NsStr) (_items : List (NsStr × NsEnvelope)) :
    List (NsStr × NsEnvelope) :=
  []

/-!
Predicates and evaluation lemmas for the memory backend.
-/

/-- The storage array has no holes (no `delete _storage[i]` has been left
behind). -/
def cleanStorage (l : List (Option MEntry)) : Bool :=
  l.all (fun o => o.isSome)

/-- No entry of the storage array carries the given key. -/
def keyAbsent (l : List (Option MEntry)) (k : String) : Bool :=
  l.all (fun o => match o with | some e => e.key != k | none => true)

lemma findEntry_none_of {l : List (Option MEntry)} {k : String}
    (hc : cleanStorage l = true) (ha : keyAbsent l k = true) :
    findEntry k l = .ok none := by
  induction l with
  | nil => rfl
  | cons o rest ih =>
    cases o with
    | none => simp [cleanStorage] at hc
    | some e =>
      simp only [cleanStorage, List.all_cons, Bool.and_eq_true] at hc
      simp only [keyAbsent, List.all_cons, Bool.and_eq_true] at ha
      have hne : ¬ e.key = k := by simpa using ha.1
      simp only [findEntry, if_neg hne]
      rw [ih hc.2 (by simpa [keyAbsent] using ha.2)]

lemma findEntry_decomp {k : String} {l pre post : List (Option MEntry)} {e : MEntry}
    (h : findEntry k l = .ok (some (pre, e, post))) : l = pre ++ some e :: post := by
  induction l generalizing pre with
  | nil => simp [findEntry] at h
  | cons o rest ih =>
    cases o with
    | none => simp [findEntry] at h
    | some a =>
      by_cases hk : a.key = k
      · simp only [findEntry, if_pos hk, Except.ok.injEq, Option.some.injEq,
          Prod.mk.injEq] at h
        obtain ⟨rfl, rfl, rfl⟩ := h
        simp
      · simp only [findEntry, if_neg hk] at h
        cases hrec : findEntry k rest with
        | error u => rw [hrec] at h; simp at h
        | ok ores =>
          cases ores with
          | none => rw [hrec] at h; simp at h
          | some trip =>
            obtain ⟨p2, e2, q2⟩ := trip
            rw [hrec] at h
            simp only [Except.ok.injEq, Option.some.injEq, Prod.mk.injEq] at h
            obtain ⟨rfl, rfl, rfl⟩ := h
            simp [ih hrec]

lemma removeGo_length (key : String) (silent : Bool) (l : List (Option MEntry)) :
    (removeGo key silent l).1.length = l.length := by
  induction l with
  | nil => rfl
  | cons o rest ih =>
    cases o with
    | none => simp [removeGo]
    | some e =>
      by_cases hk : e.key = key <;> simp [removeGo, hk, ih]

lemma evictLoop_of_lt {size : Int} {l : List (Option MEntry)}
    (h : (l.length : Int) < size) : evictLoop size l = some l := by
  cases l with
  | nil =>
    rw [evictLoop]
    rw [if_neg (by omega)]
  | cons a t =>
    rw [evictLoop]
    rw [if_neg (by omega)]

lemma evictLoop_full {size : Int} {l : List (Option MEntry)} (hne : l ≠ [])
    (heq : (l.length : Int) = size) :
    evictLoop size l = some l.dropLast := by
  cases l with
  | nil => exact absurd rfl hne
  | cons a t =>
    rw [evictLoop]
    rw [if_pos (by omega)]
    apply evictLoop_of_lt
    simp only [List.length_dropLast, List.length_cons]
    push_cast
    simp only [List.length_cons] at heq
    push_cast at heq
    omega

lemma initSize_pos (o : Option Int) : 1 ≤ initSize o := by
  cases o with
  | none => simp [initSize]
  | some n =>
    simp only [initSize]
    split <;> omega

lemma write_create_eq (s : MemState) (k : String) (v : JSVal) (lt : Option Int)
    (si : Bool) {l2 : List (Option MEntry)}
    (hc : cleanStorage s.storage = true) (ha : keyAbsent s.storage k = true)
    (hev : evictLoop s.size s.storage = some l2) :
    MemoryCache.write s k v lt si = some
      ({ s with
         storage := some { key := k, value := v,
                           lifetime := convertLifetime s.lifetime lt,
                           timeoutID := (scheduleGarbage s.timers s.nextId k v
                             (convertLifetime s.lifetime lt)).1 } :: l2,
         timers := (scheduleGarbage s.timers s.nextId k v
           (convertLifetime s.lifetime lt)).2.1,
         nextId := (scheduleGarbage s.timers s.nextId k v
           (convertLifetime s.lifetime lt)).2.2,
         events := s.events ++
           (if si then [] else [Ev.write k v, Ev.writeCreate k v]) }, .ok ()) := by
  simp only [MemoryCache.write, findEntry_none_of hc ha, hev]

lemma write_update_eq {s : MemState} {k : String} {v : JSVal} {lt : Option Int}
    {si : Bool} {pre post : List (Option MEntry)} {e : MEntry}
    (hf : findEntry k s.storage = .ok (some (pre, e, post))) :
    MemoryCache.write s k v lt si = some
      ({ s with
         storage := pre ++ some { e with
                                  value := v,
                                  lifetime := (match lt with
                                    | some l => l * 1000
                                    | none => e.lifetime),
                                  timeoutID := (scheduleGarbage
                                    (cancelGarbage s.timers e.timeoutID) s.nextId k v
                                    (match lt with
                                      | some l => l * 1000
                                      | none => e.lifetime)).1 } :: post,
         timers := (scheduleGarbage (cancelGarbage s.timers e.timeoutID) s.nextId k v
           (match lt with | some l => l * 1000 | none => e.lifetime)).2.1,
         nextId := (scheduleGarbage (cancelGarbage s.timers e.timeoutID) s.nextId k v
           (match lt with | some l => l * 1000 | none => e.lifetime)).2.2,
         events := s.events ++
           (if si then [] else [Ev.write k v, Ev.writeUpdate k v]) }, .ok ()) := by
  simp only [MemoryCache.write, hf]

lemma evictLoop_some_lt {size : Int} :
    ∀ {l l2 : List (Option MEntry)}, evictLoop size l = some l2 → (l2.length : Int) < size := by
  intro l
  induction l using evictLoop.induct size with
  | case1 h =>
    intro l2 hl2
    rw [evictLoop, if_pos h] at hl2
    simp at hl2
  | case2 h =>
    intro l2 hl2
    rw [evictLoop, if_neg h] at hl2
    obtain rfl : ([] : List (Option MEntry)) = l2 := by simpa using hl2
    simpa using h
  | case3 a t h ih =>
    intro l2 hl2
    rw [evictLoop, if_pos h] at hl2
    exact ih hl2
  | case4 a t h =>
    intro l2 hl2
    rw [evictLoop, if_neg h] at hl2
    obtain rfl : a :: t = l2 := by simpa using hl2
    simpa using h

/-- C1: on a fresh MemoryCache, write(k, v1) fires the write and write:create
events and the subsequent read(k) returns v1 and fires a read event; a second
write(k, v2) leaves count() unchanged, makes read(k) return v2, and fires
write:update and not write:create. -/
theorem write_then_read_roundtrip_and_events (szArg ltArg : Option Int) (k : String)
    (v1 v2 : JSVal) :
    ((MemoryCache.runOp (mkMemory szArg ltArg) (MOp.write k v1 none false)).events
        = [Ev.write k v1, Ev.writeCreate k v1]) ∧
    ((MemoryCache.read (MemoryCache.runOp (mkMemory szArg ltArg)
          (MOp.write k v1 none false)) k none false).2
        = Except.ok v1) ∧
    ((MemoryCache.read (MemoryCache.runOp (mkMemory szArg ltArg)
          (MOp.write k v1 none false)) k none false).1.events
        = [Ev.write k v1, Ev.writeCreate k v1, Ev.read k v1]) ∧
    (MemoryCache.count (MemoryCache.runOp (MemoryCache.runOp (mkMemory szArg ltArg)
          (MOp.write k v1 none false)) (MOp.write k v2 none false))
        = MemoryCache.count (MemoryCache.runOp (mkMemory szArg ltArg)
          (MOp.write k v1 none false))) ∧
    ((MemoryCache.runOp (MemoryCache.runOp (mkMemory szArg ltArg)
          (MOp.write k v1 none false)) (MOp.write k v2 none false)).events
        = [Ev.write k v1, Ev.writeCreate k v1, Ev.write k v2, Ev.writeUpdate k v2]) ∧
    ((MemoryCache.read (MemoryCache.runOp (MemoryCache.runOp (mkMemory szArg ltArg)
          (MOp.write k v1 none false)) (MOp.write k v2 none false)) k none false).2
        = Except.ok v2) := by
  have hev : evictLoop (mkMemory szArg ltArg).size (mkMemory szArg ltArg).storage
      = some [] := by
    apply evictLoop_of_lt
    have := initSize_pos szArg
    simp only [mkMemory, List.length_nil, Nat.cast_zero]
    omega
  have h1 := write_create_eq (mkMemory szArg ltArg) k v1 none false rfl rfl hev
  simp only [MemoryCache.runOp, h1]
  simp [MemoryCache.read, MemoryCache.write, MemoryCache.count, findEntry,
    mkMemory]

lemma read_fields (s : MemState) (k : String) (d : Option JSVal) (si : Bool) :
    (MemoryCache.read s k d si).1.storage = s.storage ∧
    (MemoryCache.read s k d si).1.size = s.size ∧
    (MemoryCache.read s k d si).1.timers = s.timers ∧
    (MemoryCache.read s k d si).1.nextId = s.nextId := by
  unfold MemoryCache.read
  split
  · simp
  · split <;> simp
  · simp

lemma remove_fields (s : MemState) (k : String) (si : Bool) :
    (MemoryCache.remove s k si).1.storage.length = s.storage.length ∧
    (MemoryCache.remove s k si).1.size = s.size ∧
    (MemoryCache.remove s k si).1.timers = s.timers ∧
    (MemoryCache.remove s k si).1.nextId = s.nextId := by
  unfold MemoryCache.remove
  simp [removeGo_length]

lemma purge_fields (s : MemState) (si : Bool) :
    (MemoryCache.purge s si).storage = [] ∧
    (MemoryCache.purge s si).size = s.size ∧
    (MemoryCache.purge s si).timers = s.timers ∧
    (MemoryCache.purge s si).nextId = s.nextId := by
  unfold MemoryCache.purge
  split <;> simp

lemma setCacheLifetime_fields (s : MemState) (k : String) (lt : Option Int) :
    (MemoryCache.setCacheLifetime s k lt).1.storage.length = s.storage.length ∧
    (MemoryCache.setCacheLifetime s k lt).1.size = s.size := by
  unfold MemoryCache.setCacheLifetime
  split
  · simp
  · simp
  · next pre e post heq =>
    have hdec := findEntry_decomp heq
    constructor
    · simp [hdec]
    · simp

lemma fireTimer_fields (s : MemState) (tid : Nat) :
    (MemoryCache.fireTimer s tid).storage.length = s.storage.length ∧
    (MemoryCache.fireTimer s tid).size = s.size := by
  unfold MemoryCache.fireTimer
  cases hfind : List.find? (fun t => t.id == tid) s.timers with
  | none => simp
  | some t =>
    have hr := remove_fields { s with timers := s.timers.filter (fun u => u.id != tid) }
      t.key false
    rcases hrem : MemoryCache.remove
        { s with timers := s.timers.filter (fun u => u.id != tid) } t.key false with ⟨s2, r2⟩
    rw [hrem] at hr
    cases r2 with
    | ok u => simp only [hrem]; exact ⟨hr.1, hr.2.1⟩
    | error u => simp only [hrem]; exact ⟨hr.1, hr.2.1⟩

lemma write_some_fields {s : MemState} {k : String} {v : JSVal} {lt : Option Int}
    {si : Bool} {s2 : MemState} {r : Except Unit Unit}
    (h : MemoryCache.write s k v lt si = some (s2, r)) :
    ((s2.storage.length : Int) ≤ max (s.storage.length : Int) s.size) ∧
    s2.size = s.size := by
  unfold MemoryCache.write at h
  split at h
  · simp only [Option.some.injEq, Prod.mk.injEq] at h
    obtain ⟨h1, -⟩ := h
    subst h1
    exact ⟨le_max_left _ _, rfl⟩
  · next pre e post heq =>
    have hdec := findEntry_decomp heq
    simp only [Option.some.injEq, Prod.mk.injEq] at h
    obtain ⟨hs2, -⟩ := h
    subst hs2
    constructor
    · simp [hdec]
    · simp
  · next heq =>
    split at h
    · cases h
    · next l2 hev =>
      have hlt := evictLoop_some_lt hev
      simp only [Option.some.injEq, Prod.mk.injEq] at h
      obtain ⟨hs2, -⟩ := h
      subst hs2
      constructor
      · simp only [List.length_cons]
        push_cast
        omega
      · simp

lemma runOp_inv {s : MemState} (op : MOp)
    (h : (s.storage.length : Int) ≤ s.size) :
    ((MemoryCache.runOp s op).storage.length : Int) ≤ (MemoryCache.runOp s op).size ∧
    (MemoryCache.runOp s op).size = s.size := by
  cases op with
  | write k v l si =>
    simp only [MemoryCache.runOp]
    split
    · next s2 r hw =>
      have hf := write_some_fields hw
      rw [hf.2]
      refine ⟨?_, rfl⟩
      have := hf.1
      omega
    · exact ⟨h, rfl⟩
  | read k d si =>
    have hf := read_fields s k d si
    simp only [MemoryCache.runOp]
    refine ⟨?_, hf.2.1⟩
    rw [hf.1, hf.2.1]
    exact h
  | remove k si =>
    have hf := remove_fields s k si
    simp only [MemoryCache.runOp]
    refine ⟨?_, hf.2.1⟩
    rw [hf.1, hf.2.1]
    exact h
  | purge si =>
    have hf := purge_fields s si
    simp only [MemoryCache.runOp]
    refine ⟨?_, hf.2.1⟩
    rw [hf.1, hf.2.1]
    simp only [List.length_nil, Nat.cast_zero]
    omega
  | setCacheLifetime k l =>
    have hf := setCacheLifetime_fields s k l
    simp only [MemoryCache.runOp]
    refine ⟨?_, hf.2⟩
    rw [hf.1, hf.2]
    exact h
  | fire tid =>
    have hf := fireTimer_fields s tid
    simp only [MemoryCache.runOp]
    refine ⟨?_, hf.2⟩
    rw [hf.1, hf.2]
    exact h

lemma runOps_inv {s : MemState} (ops : List MOp)
    (h : (s.storage.length : Int) ≤ s.size) :
    ((MemoryCache.runOps s ops).storage.length : Int) ≤ (MemoryCache.runOps s ops).size ∧
    (MemoryCache.runOps s ops).size = s.size := by
  induction ops generalizing s with
  | nil => exact ⟨h, rfl⟩
  | cons op rest ih =>
    have h1 := runOp_inv op h
    have h2 := @ih (MemoryCache.runOp s op) h1.1
    simp only [MemoryCache.runOps, List.foldl_cons] at h2 ⊢
    exact ⟨h2.1, h2.2.trans h1.2⟩

/-- C4: over every operation sequence on a freshly constructed MemoryCache,
count() never exceeds the capacity; and writing a new key into a full cache
evicts exactly one entry, the tail (oldest by insertion/least-recent-write
order) of the newest-first list, leaving count() unchanged. -/
theorem capacity_invariant_and_tail_eviction :
    (∀ (szArg ltArg : Option Int) (ops : List MOp),
      ((MemoryCache.runOps (mkMemory szArg ltArg) ops).storage.length : Int)
        ≤ (mkMemory szArg ltArg).size) ∧
    (∀ (s : MemState) (k : String) (v : JSVal) (lt : Option Int) (si : Bool),
      cleanStorage s.storage = true → keyAbsent s.storage k = true →
      s.storage ≠ [] → (s.storage.length : Int) = s.size →
      MemoryCache.write s k v lt si = some
        ({ s with
           storage := some { key := k, value := v,
                             lifetime := convertLifetime s.lifetime lt,
                             timeoutID := (scheduleGarbage s.timers s.nextId k v
                               (convertLifetime s.lifetime lt)).1 } :: s.storage.dropLast,
           timers := (scheduleGarbage s.timers s.nextId k v
             (convertLifetime s.lifetime lt)).2.1,
           nextId := (scheduleGarbage s.timers s.nextId k v
             (convertLifetime s.lifetime lt)).2.2,
           events := s.events ++
             (if si then [] else [Ev.write k v, Ev.writeCreate k v]) }, .ok ()) ∧
      (MemoryCache.runOp s (MOp.write k v lt si)).storage.length
        = s.storage.length) := by
  constructor
  · intro szArg ltArg ops
    have h0 : ((mkMemory szArg ltArg).storage.length : Int) ≤ (mkMemory szArg ltArg).size := by
      have := initSize_pos szArg
      simp only [mkMemory, List.length_nil, Nat.cast_zero]
      omega
    have := runOps_inv ops h0
    rw [← this.2]
    exact this.1
  · intro s k v lt si hc ha hne heq
    have hev : evictLoop s.size s.storage = some s.storage.dropLast :=
      evictLoop_full hne heq
    have h1 := write_create_eq s k v lt si hc ha hev
    refine ⟨h1, ?_⟩
    simp only [MemoryCache.runOp, h1]
    simp only [List.length_cons, List.length_dropLast]
    have : 0 < s.storage.length := List.length_pos.2 hne
    omega

/-- Concrete full state used by the capacity witness: a MemoryCache of size 2
holding two entries. -/
def sFull : MemState :=
  { size := 2, lifetime := 0,
    storage := [some { key := "a", value := JSVal.vnum 1, lifetime := 0, timeoutID := none },
                some { key := "b", value := JSVal.vnum 2, lifetime := 0, timeoutID := none }],
    timers := [], nextId := 0, events := [] }

/-- Witness for C4 at concrete inputs. -/
theorem capacity_invariant_and_tail_eviction_witness :
    (((MemoryCache.runOps (mkMemory (some 2) none)
        [MOp.write "a" (JSVal.vnum 1) none false,
         MOp.write "b" (JSVal.vnum 2) none false,
         MOp.write "c" (JSVal.vnum 3) none false]).storage.length : Int)
      ≤ (mkMemory (some 2) none).size) ∧
    (MemoryCache.write sFull "c" (JSVal.vnum 3) none false = some
      ({ sFull with
         storage := some { key := "c", value := JSVal.vnum 3,
                           lifetime := convertLifetime sFull.lifetime none,
                           timeoutID := (scheduleGarbage sFull.timers sFull.nextId "c"
                             (JSVal.vnum 3)
                             (convertLifetime sFull.lifetime none)).1 } :: sFull.storage.dropLast,
         timers := (scheduleGarbage sFull.timers sFull.nextId "c" (JSVal.vnum 3)
           (convertLifetime sFull.lifetime none)).2.1,
         nextId := (scheduleGarbage sFull.timers sFull.nextId "c" (JSVal.vnum 3)
           (convertLifetime sFull.lifetime none)).2.2,
         events := sFull.events ++
           (if false then []
            else [Ev.write "c" (JSVal.vnum 3), Ev.writeCreate "c" (JSVal.vnum 3)]) },
       .ok ()) ∧
     (MemoryCache.runOp sFull (MOp.write "c" (JSVal.vnum 3) none false)).storage.length
       = sFull.storage.length) :=
  ⟨capacity_invariant_and_tail_eviction.1 (some 2) none
     [MOp.write "a" (JSVal.vnum 1) none false,
      MOp.write "b" (JSVal.vnum 2) none false,
      MOp.write "c" (JSVal.vnum 3) none false],
   capacity_invariant_and_tail_eviction.2 sFull "c" (JSVal.vnum 3) none false
     (by decide) (by decide) (by decide) (by decide)⟩

/-- C2: the claim fails on the code.  On the memory backend, after
`write("k", 1)` a `remove("k")` leaves count() at 1 (the source uses
`delete _storage[i]`, which leaves a hole without shrinking the array) and a
subsequent `has("k")` throws a TypeError instead of returning false.  On the
storage backend, after `write("k", 0)` a `remove("k")` does not remove the
entry at all (the source tests the read value for truthiness, so every falsy
stored value is kept), fires no remove event, and fires a read event even
though the claim describes none. -/
theorem remove_leaves_hole_and_skips_falsy :
    (MemoryCache.count
        (MemoryCache.remove (MemoryCache.runOp (mkMemory none none)
          (MOp.write "k" (JSVal.vnum 1) none false)) "k" false).1 = 1) ∧
    ((MemoryCache.remove (MemoryCache.runOp (mkMemory none none)
          (MOp.write "k" (JSVal.vnum 1) none false)) "k" false).1.storage = [none]) ∧
    (MemoryCache.has
        (MemoryCache.remove (MemoryCache.runOp (mkMemory none none)
          (MOp.write "k" (JSVal.vnum 1) none false)) "k" false).1 "k"
        = Except.error ()) ∧
    (StorageCache.count
        (StorageCache.remove ((StorageCache.write (mkStorage none none [] 0) 0 "k"
          (JSVal.vnum 0) none false).getD (mkStorage none none [] 0)) "k" false) = 1) ∧
    (StorageCache.has
        (StorageCache.remove ((StorageCache.write (mkStorage none none [] 0) 0 "k"
          (JSVal.vnum 0) none false).getD (mkStorage none none [] 0)) "k" false) "k"
        = true) ∧
    ((StorageCache.remove ((StorageCache.write (mkStorage none none [] 0) 0 "k"
          (JSVal.vnum 0) none false).getD (mkStorage none none [] 0)) "k" false).events
        = [Ev.write "k" (JSVal.vnum 0), Ev.writeCreate "k" (JSVal.vnum 0),
           Ev.read "k" (JSVal.vnum 0)]) := by
  have hmk : mkStorage none none [] 0 =
      { size := 5, lifetime := 0, items := [], timers := [], nextId := 0, events := [] } := by
    rw [mkStorage, StorageCache.initLoop]
    simp [initSize, initLifetime]
  refine ⟨?_, ?_, ?_, ?_, ?_, ?_⟩ <;>
    simp [MemoryCache.runOp, MemoryCache.write, MemoryCache.remove, MemoryCache.count,
      MemoryCache.has, findEntry, removeGo, mkMemory, initSize, initLifetime,
      convertLifetime, scheduleGarbage, evictLoop, hmk, StorageCache.write,
      StorageCache.remove, StorageCache.read, StorageCache.count, StorageCache.has,
      Store.getItem, Store.setItem, Store.removeItem, sEvictLoop, truthy]

/-- C3: the claim fails on the code.  After `write("k", "v", 1)` a timer of
1000 ms is armed; when it fires, the callback calls `remove(key)` with no
silent option, so a remove event IS fired for the timer-driven expiry before
the garbage event, and because remove leaves a hole, `has("k")` afterwards
throws a TypeError instead of becoming false. -/
theorem expiry_fires_remove_event_and_breaks_has :
    ((MemoryCache.runOp (mkMemory none none)
        (MOp.write "k" (JSVal.vstr "v") (some 1) false)).timers
      = [{ id := 0, key := "k", value := JSVal.vstr "v", delay := 1000 }]) ∧
    ((MemoryCache.fireTimer (MemoryCache.runOp (mkMemory none none)
        (MOp.write "k" (JSVal.vstr "v") (some 1) false)) 0).events
      = [Ev.write "k" (JSVal.vstr "v"), Ev.writeCreate "k" (JSVal.vstr "v"),
         Ev.remove "k" (JSVal.vstr "v"), Ev.garbage "k" (JSVal.vstr "v")]) ∧
    (MemoryCache.has (MemoryCache.fireTimer (MemoryCache.runOp (mkMemory none none)
        (MOp.write "k" (JSVal.vstr "v") (some 1) false)) 0) "k"
      = Except.error ()) ∧
    ((MemoryCache.fireTimer (MemoryCache.runOp (mkMemory none none)
        (MOp.write "k" (JSVal.vstr "v") (some 1) false)) 0).timers = []) := by
  refine ⟨?_, ?_, ?_, ?_⟩ <;>
    simp [MemoryCache.runOp, MemoryCache.write, MemoryCache.remove, MemoryCache.has,
      MemoryCache.fireTimer, findEntry, removeGo, mkMemory, initSize, initLifetime,
      convertLifetime, scheduleGarbage, cancelGarbage, evictLoop, List.find?,
      List.filter]

/-- C5 counterexample: the claim as stated is false on the code.  After
`write("k","v",1)` the armed timer survives `remove("k")` untouched; and
after `write; purge; write` the same key has TWO live timers at once. -/
theorem stale_timer_counterexample :
    ((MemoryCache.remove (MemoryCache.runOp (mkMemory none none)
        (MOp.write "k" (JSVal.vstr "v") (some 1) false)) "k" false).1.timers
      = [{ id := 0, key := "k", value := JSVal.vstr "v", delay := 1000 }]) ∧
    ((MemoryCache.runOps (mkMemory none none)
        [MOp.write "k" (JSVal.vstr "v") (some 1) false,
         MOp.purge false,
         MOp.write "k" (JSVal.vstr "v") (some 1) false]).timers
      = [{ id := 0, key := "k", value := JSVal.vstr "v", delay := 1000 },
         { id := 1, key := "k", value := JSVal.vstr "v", delay := 1000 }]) := by
  constructor <;>
    simp [MemoryCache.runOps, MemoryCache.runOp, MemoryCache.write, MemoryCache.remove,
      MemoryCache.purge, findEntry, removeGo, mkMemory, initSize, initLifetime,
      convertLifetime, scheduleGarbage, cancelGarbage, evictLoop]

/-- C5 amended: a write on an existing key and setCacheLifetime do cancel the
entry's outstanding timer before arming the new one; but remove and purge do
not cancel timers at all, so a stale timer survives removal or purge (and can
coexist with a later timer for the same key, as the counterexample shows). -/
theorem timer_cancellation_amended :
    (∀ (s : MemState) (k : String) (v : JSVal) (lt : Option Int) (si : Bool)
       (pre post : List (Option MEntry)) (e : MEntry),
      findEntry k s.storage = .ok (some (pre, e, post)) →
      (MemoryCache.runOp s (MOp.write k v lt si)).timers
        = (scheduleGarbage (cancelGarbage s.timers e.timeoutID) s.nextId k v
            (match lt with | some l => l * 1000 | none => e.lifetime)).2.1) ∧
    (∀ (s : MemState) (k : String) (lt : Option Int)
       (pre post : List (Option MEntry)) (e : MEntry),
      findEntry k s.storage = .ok (some (pre, e, post)) →
      (MemoryCache.setCacheLifetime s k lt).1.timers
        = (scheduleGarbage (cancelGarbage s.timers e.timeoutID) s.nextId k e.value
            (convertLifetime s.lifetime lt)).2.1) ∧
    (∀ (s : MemState) (k : String) (si : Bool),
      (MemoryCache.remove s k si).1.timers = s.timers) ∧
    (∀ (s : MemState) (si : Bool),
      (MemoryCache.purge s si).timers = s.timers) := by
  refine ⟨?_, ?_, ?_, ?_⟩
  · intro s k v lt si pre post e hf
    simp only [MemoryCache.runOp, write_update_eq hf]
  · intro s k lt pre post e hf
    simp only [MemoryCache.setCacheLifetime, hf]
  · intro s k si
    exact (remove_fields s k si).2.2.1
  · intro s si
    exact (purge_fields s si).2.2.1

/-- Concrete one-entry state used by the C5 witness: key "k" with an armed
timer of id 0. -/
def sOneTimer : MemState :=
  { size := 5, lifetime := 0,
    storage := [some { key := "k", value := JSVal.vstr "v", lifetime := 1000,
                       timeoutID := some 0 }],
    timers := [{ id := 0, key := "k", value := JSVal.vstr "v", delay := 1000 }],
    nextId := 1, events := [] }

/-- Witness for the amended C5 at concrete inputs. -/
theorem timer_cancellation_amended_witness :
    ((MemoryCache.runOp sOneTimer (MOp.write "k" (JSVal.vstr "w") none false)).timers
      = (scheduleGarbage (cancelGarbage sOneTimer.timers (some 0)) sOneTimer.nextId "k"
          (JSVal.vstr "w") 1000).2.1) ∧
    ((MemoryCache.setCacheLifetime sOneTimer "k" (some 2)).1.timers
      = (scheduleGarbage (cancelGarbage sOneTimer.timers (some 0)) sOneTimer.nextId "k"
          (JSVal.vstr "v") (convertLifetime sOneTimer.lifetime (some 2))).2.1) ∧
    ((MemoryCache.remove sOneTimer "k" false).1.timers = sOneTimer.timers) ∧
    ((MemoryCache.purge sOneTimer false).timers = sOneTimer.timers) :=
  ⟨timer_cancellation_amended.1 sOneTimer "k" (JSVal.vstr "w") none false []
     [] { key := "k", value := JSVal.vstr "v", lifetime := 1000, timeoutID := some 0 }
     rfl,
   timer_cancellation_amended.2.1 sOneTimer "k" (some 2) []
     [] { key := "k", value := JSVal.vstr "v", lifetime := 1000, timeoutID := some 0 }
     rfl,
   timer_cancellation_amended.2.2.1 sOneTimer "k" false,
   timer_cancellation_amended.2.2.2 sOneTimer false⟩

/-- C8 counterexample: the claim as stated is false on the code.  After
`write("k","v",1)` and `purge()`, the armed timer is not cancelled; when it
fires, a garbage event IS emitted for the purged entry. -/
theorem purge_then_garbage_counterexample :
    (MemoryCache.runOps (mkMemory none none)
        [MOp.write "k" (JSVal.vstr "v") (some 1) false,
         MOp.purge false,
         MOp.fire 0]).events
      = [Ev.write "k" (JSVal.vstr "v"), Ev.writeCreate "k" (JSVal.vstr "v"),
         Ev.purge, Ev.garbage "k" (JSVal.vstr "v")] := by
  simp [MemoryCache.runOps, MemoryCache.runOp, MemoryCache.write, MemoryCache.remove,
    MemoryCache.purge, MemoryCache.fireTimer, findEntry, removeGo, mkMemory, initSize,
    initLifetime, convertLifetime, scheduleGarbage, cancelGarbage, evictLoop,
    List.find?, List.filter]

/-- C8 amended: purge() reduces count() to 0 and fires exactly one purge
event (none when silent), with no remove or garbage events at purge time;
but the previously armed expiry timers are NOT cancelled, and when such a
timer later fires, a garbage event is emitted for the purged entry (and no
remove event, the key being absent). -/
theorem purge_amended :
    (∀ (s : MemState) (si : Bool), MemoryCache.count (MemoryCache.purge s si) = 0) ∧
    (∀ (s : MemState), (MemoryCache.purge s false).events = s.events ++ [Ev.purge]) ∧
    (∀ (s : MemState), (MemoryCache.purge s true).events = s.events) ∧
    (∀ (s : MemState) (si : Bool), (MemoryCache.purge s si).timers = s.timers) ∧
    (∀ (s : MemState) (si : Bool) (tid : Nat) (t : Timer),
      List.find? (fun u => u.id == tid) (MemoryCache.purge s si).timers = some t →
      (MemoryCache.fireTimer (MemoryCache.purge s si) tid).events
        = (MemoryCache.purge s si).events ++ [Ev.garbage t.key t.value]) := by
  refine ⟨?_, ?_, ?_, ?_, ?_⟩
  · intro s si
    simp [MemoryCache.count, (purge_fields s si).1]
  · intro s
    simp [MemoryCache.purge]
  · intro s
    simp [MemoryCache.purge]
  · intro s si
    exact (purge_fields s si).2.2.1
  · intro s si tid t hfind
    have hst : (MemoryCache.purge s si).storage = [] := (purge_fields s si).1
    simp only [MemoryCache.fireTimer, hfind]
    simp [MemoryCache.remove, removeGo, hst]

/-- Concrete state used by the C8 witness: one purged-entry timer armed. -/
def sPurged : MemState :=
  { size := 5, lifetime := 0,
    storage := [some { key := "k", value := JSVal.vstr "v", lifetime := 1000,
                       timeoutID := some 0 }],
    timers := [{ id := 0, key := "k", value := JSVal.vstr "v", delay := 1000 }],
    nextId := 1, events := [] }

/-- Witness for the amended C8 at concrete inputs. -/
theorem purge_amended_witness :
    (MemoryCache.count (MemoryCache.purge sPurged false) = 0) ∧
    ((MemoryCache.purge sPurged false).events = sPurged.events ++ [Ev.purge]) ∧
    ((MemoryCache.purge sPurged true).events = sPurged.events) ∧
    ((MemoryCache.purge sPurged false).timers = sPurged.timers) ∧
    ((MemoryCache.fireTimer (MemoryCache.purge sPurged false) 0).events
      = (MemoryCache.purge sPurged false).events ++
          [Ev.garbage "k" (JSVal.vstr "v")]) :=
  ⟨purge_amended.1 sPurged false,
   purge_amended.2.1 sPurged,
   purge_amended.2.2.1 sPurged,
   purge_amended.2.2.2.1 sPurged false,
   purge_amended.2.2.2.2 sPurged false 0
     { id := 0, key := "k", value := JSVal.vstr "v", delay := 1000 } rfl⟩

/-- C6: the claim fails on the code.  Recovering a store holding an entry
with `createdAt = 0`, `lifetime = 10000` at `now = 4000` should arm a timer
for the remaining `10000 - (4000 - 0) = 6000` ms; the source overwrites
`item.createdAt` with the current time BEFORE computing the remainder, so the
timer is armed for the full 10000 ms.  `read` does return the original value,
and an already-expired entry is removed with no event, as the claim states. -/
theorem recovery_arms_full_lifetime :
    ((mkStorage none none
        [("k", { value := JSVal.vstr "v", lifetime := 10000, createdAt := 0,
                 timeoutID := none })] 4000).timers.map Timer.delay = [10000]) ∧
    (¬ ((mkStorage none none
        [("k", { value := JSVal.vstr "v", lifetime := 10000, createdAt := 0,
                 timeoutID := none })] 4000).timers.map Timer.delay
        = [10000 - (4000 - 0)])) ∧
    ((StorageCache.read (mkStorage none none
        [("k", { value := JSVal.vstr "v", lifetime := 10000, createdAt := 0,
                 timeoutID := none })] 4000) "k" none true).2 = JSVal.vstr "v") ∧
    ((mkStorage none none
        [("e", { value := JSVal.vstr "w", lifetime := 1000, createdAt := 0,
                 timeoutID := none })] 5000).items = []) ∧
    ((mkStorage none none
        [("e", { value := JSVal.vstr "w", lifetime := 1000, createdAt := 0,
                 timeoutID := none })] 5000).events = []) := by
  refine ⟨?_, ?_, ?_, ?_, ?_⟩ <;>
    simp [mkStorage, StorageCache.initLoop, StorageCache.read, Store.getItem,
      Store.setItem, Store.removeItem, scheduleGarbage, initSize, initLifetime,
      List.find?, List.filter]

/-- C9 counterexample: the claim as stated is false on the code.  After
`write("a", 1)` then `remove("a")` — a state reached by ordinary operations —
the memory storage array is the one-hole array left by `delete _storage[i]`;
the key "k" is absent, yet `read("k")` with the defaultValue argument omitted
throws a TypeError at `_storage[i].key` instead of returning null. -/
theorem read_miss_after_remove_throws_counterexample :
    (keyAbsent (MemoryCache.remove (MemoryCache.runOp (mkMemory none none)
        (MOp.write "a" (JSVal.vnum 1) none false)) "a" false).1.storage "k" = true) ∧
    ((MemoryCache.read (MemoryCache.remove (MemoryCache.runOp (mkMemory none none)
        (MOp.write "a" (JSVal.vnum 1) none false)) "a" false).1 "k" none false).2
      = Except.error ()) := by
  constructor <;>
    simp [MemoryCache.runOp, MemoryCache.write, MemoryCache.remove, MemoryCache.read,
      findEntry, removeGo, keyAbsent, mkMemory, initSize, initLifetime,
      convertLifetime, scheduleGarbage, evictLoop]

/-- C9 amended: for an absent key, read with the defaultValue argument
omitted (undefined) returns exactly JS null — not undefined and not an
error — in the storage backend unconditionally, and in the memory backend on
hole-free storage; in a storage array holding a hole left by a previous
remove, the read throws instead, as the counterexample shows. -/
theorem read_miss_returns_null :
    (∀ (s : MemState) (k : String),
      cleanStorage s.storage = true → keyAbsent s.storage k = true →
      ∀ (si : Bool), (MemoryCache.read s k none si).2 = Except.ok JSVal.vnull) ∧
    (∀ (t : SState) (k : String),
      Store.getItem t.items k = none →
      ∀ (si : Bool), (StorageCache.read t k none si).2 = JSVal.vnull) := by
  constructor
  · intro s k hc ha si
    simp [MemoryCache.read, findEntry_none_of hc ha]
  · intro t k hg si
    simp [StorageCache.read, hg]

/-- Witness for C9 at concrete inputs. -/
theorem read_miss_returns_null_witness :
    ((MemoryCache.read (mkMemory none none) "missing" none false).2
      = Except.ok JSVal.vnull) ∧
    ((StorageCache.read
        { size := 5, lifetime := 0, items := [], timers := [], nextId := 0, events := [] }
        "missing" none false).2 = JSVal.vnull) :=
  ⟨read_miss_returns_null.1 (mkMemory none none) "missing" rfl rfl false,
   read_miss_returns_null.2
     { size := 5, lifetime := 0, items := [], timers := [], nextId := 0, events := [] }
     "missing" rfl false⟩

lemma evictLoop_isSome_of_pos {size : Int} (hpos : 1 ≤ size) :
    ∀ (l : List (Option MEntry)), ∃ l2, evictLoop size l = some l2 := by
  intro l
  induction l using evictLoop.induct size with
  | case1 h => exact absurd hpos (by omega)
  | case2 h => exact ⟨[], by rw [evictLoop, if_neg h]⟩
  | case3 a t h ih =>
    obtain ⟨l2, hl2⟩ := ih
    exact ⟨l2, by rw [evictLoop, if_pos h]; exact hl2⟩
  | case4 a t h => exact ⟨a :: t, by rw [evictLoop, if_neg h]⟩

/-- C10: setSize stores its argument exactly (even 0 or negative) and
setLifetime stores exactly the argument times 1000, with none of the
constructor's validation or fallback (the constructor maps 0 to 5 and a
negative lifetime to 0); and the new values govern the eviction bound and the
expiry delay of every subsequent write. -/
theorem setters_apply_no_validation :
    (∀ (s : MemState) (n : Int), (setSize s n).size = n) ∧
    (∀ (s : MemState) (t : Int), (setLifetime s t).lifetime = t * 1000) ∧
    (initSize (some 0) = 5 ∧ initLifetime (some (-3)) = 0) ∧
    (∀ (s : MemState) (n : Int) (k : String) (v : JSVal) (lt : Option Int) (si : Bool),
      cleanStorage s.storage = true → keyAbsent s.storage k = true → 1 ≤ n →
      ((MemoryCache.runOp (setSize s n) (MOp.write k v lt si)).storage.length : Int) ≤ n) ∧
    (∀ (s : MemState) (t : Int) (k : String) (v : JSVal) (si : Bool),
      cleanStorage s.storage = true → keyAbsent s.storage k = true →
      1 ≤ s.size → 1 ≤ t →
      (MemoryCache.runOp (setLifetime s t) (MOp.write k v none si)).timers
        = s.timers ++ [{ id := s.nextId, key := k, value := v, delay := t * 1000 }]) := by
  refine ⟨fun s n => rfl, fun s t => rfl, ⟨rfl, rfl⟩, ?_, ?_⟩
  · intro s n k v lt si hc ha hn
    obtain ⟨l2, hev⟩ := evictLoop_isSome_of_pos hn (setSize s n).storage
    have h1 := write_create_eq (setSize s n) k v lt si hc ha hev
    have hlt := evictLoop_some_lt hev
    simp only [MemoryCache.runOp, h1]
    simp only [List.length_cons]
    simp only [setSize] at hlt
    push_cast
    omega
  · intro s t k v si hc ha hsz ht
    obtain ⟨l2, hev⟩ := evictLoop_isSome_of_pos hsz (setLifetime s t).storage
    have h1 := write_create_eq (setLifetime s t) k v none si hc ha hev
    simp only [MemoryCache.runOp, h1]
    simp only [setLifetime, scheduleGarbage, convertLifetime]
    rw [if_pos (by omega : (0 : Int) < t * 1000)]

/-- Witness for C10 at concrete inputs. -/
theorem setters_apply_no_validation_witness :
    ((setSize (mkMemory none none) 0).size = 0) ∧
    ((setLifetime (mkMemory none none) (-2)).lifetime = (-2) * 1000) ∧
    (initSize (some 0) = 5 ∧ initLifetime (some (-3)) = 0) ∧
    (((MemoryCache.runOp (setSize (mkMemory none none) 2)
        (MOp.write "k" (JSVal.vnum 7) none false)).storage.length : Int) ≤ 2) ∧
    ((MemoryCache.runOp (setLifetime (mkMemory none none) 3)
        (MOp.write "k" (JSVal.vnum 7) none false)).timers
      = (mkMemory none none).timers ++
          [{ id := (mkMemory none none).nextId, key := "k", value := JSVal.vnum 7,
             delay := 3 * 1000 }]) :=
  ⟨setters_apply_no_validation.1 (mkMemory none none) 0,
   setters_apply_no_validation.2.1 (mkMemory none none) (-2),
   setters_apply_no_validation.2.2.1,
   setters_apply_no_validation.2.2.2.1 (mkMemory none none) 2 "k" (JSVal.vnum 7)
     none false rfl rfl (by norm_num),
   setters_apply_no_validation.2.2.2.2 (mkMemory none none) 3 "k" (JSVal.vnum 7)
     false rfl rfl (by decide) (by norm_num)⟩

lemma ns_storeKey_ne (ns1 ns2 k1 k2 : NsStr) (h1 : ns1 ≠ []) (h2 : ns2 ≠ [])
    (h12 : ¬ (ns1 ++ ['.']) <+: (ns2 ++ ['.']))
    (h21 : ¬ (ns2 ++ ['.']) <+: (ns1 ++ ['.'])) :
    storeKey ns1 k1 ≠ storeKey ns2 k2 := by
  intro heq
  rw [storeKey, if_neg h1, storeKey, if_neg h2] at heq
  have p1 : (ns1 ++ ['.']) <+: (ns2 ++ ['.']) ++ k2 := heq ▸ List.prefix_append _ _
  have p2 : (ns2 ++ ['.']) <+: (ns2 ++ ['.']) ++ k2 := List.prefix_append _ _
  rcases List.prefix_or_prefix_of_prefix p1 p2 with h | h
  · exact h12 h
  · exact h21 h

lemma ns_inNamespace_false (ns1 ns2 k2 : NsStr) (h1 : ns1 ≠ []) (h2 : ns2 ≠ [])
    (h12 : ¬ (ns1 ++ ['.']) <+: (ns2 ++ ['.']))
    (h21 : ¬ (ns2 ++ ['.']) <+: (ns1 ++ ['.'])) :
    inNamespace ns1 (storeKey ns2 k2) = false := by
  rw [inNamespace, if_neg h1]
  apply Bool.eq_false_iff.2
  intro htrue
  rw [List.isPrefixOf_iff_prefix, storeKey, if_neg h2] at htrue
  have p2 := List.prefix_append (ns2 ++ ['.']) k2
  rcases List.prefix_or_prefix_of_prefix htrue p2 with h | h
  · exact h12 h
  · exact h21 h

/-- C7 counterexample: the claim as stated is false of the modelled reference
behavior, in two ways.  First, purge is not namespace-scoped: instance "a"
writes key "k", then a purge issued through namespace "b" removes it, so one
instance's purge does reach the other instance's keys.  Second, the store-key
mapping collides for nested namespaces: when instance "a" writes key "b.k",
the store key is "a.b.k", which instance "a.b" (a distinct non-empty
namespace) observes as its own key "k" via has and sees via readAll. -/
theorem namespace_isolation_counterexample :
    (NsCache.has ['a'] (NsCache.write ['a'] [] ['k'] (JSVal.vnum 1) 0 0) ['k'] = true) ∧
    (NsCache.has ['a'] (NsCache.purge ['b']
        (NsCache.write ['a'] [] ['k'] (JSVal.vnum 1) 0 0)) ['k'] = false) ∧
    (NsCache.has ['a', '.', 'b']
        (NsCache.write ['a'] [] ['b', '.', 'k'] (JSVal.vnum 1) 0 0) ['k'] = true) ∧
    (NsCache.readAll ['a', '.', 'b']
        (NsCache.write ['a'] [] ['b', '.', 'k'] (JSVal.vnum 1) 0 0)
      = [(['b', '.', 'k'], JSVal.vnum 1)]) := by
  decide

/-- C7 amended: the store-key mapping is namespace + "." + key for a
non-empty namespace, else the raw key, and is inverted exactly on recovery
and injective per namespace; two instances whose namespaces (with the dot
separator appended) are not prefixes of one another — such as "a" and "b" —
never observe each other's keys via has or readAll; but purge clears the
ENTIRE underlying store regardless of the calling instance's namespace, so
purge is not isolated. -/
theorem namespacing_amended :
    (∀ (key : NsStr), storeKey [] key = key) ∧
    (∀ (ns key : NsStr), ns ≠ [] → storeKey ns key = ns ++ ['.'] ++ key) ∧
    (∀ (ns key : NsStr), keyFromStoreKey ns (storeKey ns key) = key) ∧
    (∀ (ns k1 k2 : NsStr), storeKey ns k1 = storeKey ns k2 → k1 = k2) ∧
    (∀ (ns1 ns2 k1 k2 : NsStr) (v : JSVal) (lt ct : Int), ns1 ≠ [] → ns2 ≠ [] →
      ¬ (ns1 ++ ['.']) <+: (ns2 ++ ['.']) → ¬ (ns2 ++ ['.']) <+: (ns1 ++ ['.']) →
      NsCache.has ns1 (NsCache.write ns2 [] k2 v lt ct) k1 = false) ∧
    (∀ (ns1 ns2 k2 : NsStr) (v : JSVal) (lt ct : Int), ns1 ≠ [] → ns2 ≠ [] →
      ¬ (ns1 ++ ['.']) <+: (ns2 ++ ['.']) → ¬ (ns2 ++ ['.']) <+: (ns1 ++ ['.']) →
      NsCache.readAll ns1 (NsCache.write ns2 [] k2 v lt ct) = []) ∧
    (∀ (ns : NsStr) (items : List (NsStr × NsEnvelope)),
      NsCache.purge ns items = []) := by
  refine ⟨?_, ?_, ?_, ?_, ?_, ?_, ?_⟩
  · intro key
    simp [storeKey]
  · intro ns key h
    simp [storeKey, h]
  · intro ns key
    by_cases h : ns = []
    · simp [storeKey, keyFromStoreKey, h]
    · rw [storeKey, if_neg h, keyFromStoreKey, if_neg h]
      have hd := List.drop_left (ns ++ ['.']) key
      rw [List.length_append] at hd
      exact hd
  · intro ns k1 k2 heq
    by_cases h : ns = []
    · simpa [storeKey, h] using heq
    · rw [storeKey, if_neg h, storeKey, if_neg h] at heq
      exact List.append_cancel_left heq
  · intro ns1 ns2 k1 k2 v lt ct h1 h2 h12 h21
    have hne := ns_storeKey_ne ns2 ns1 k2 k1 h2 h1 h21 h12
    simp [NsCache.has, NsCache.write, NsStore.setItem, hne]
  · intro ns1 ns2 k2 v lt ct h1 h2 h12 h21
    have hno := ns_inNamespace_false ns1 ns2 k2 h1 h2 h12 h21
    simp [NsCache.readAll, NsCache.write, NsStore.setItem, hno]
  · intro ns items
    rfl

/-- Witness for the amended C7 at concrete inputs. -/
theorem namespacing_amended_witness :
    (storeKey [] ['k'] = ['k']) ∧
    (storeKey ['a'] ['k'] = ['a'] ++ ['.'] ++ ['k']) ∧
    (keyFromStoreKey ['a'] (storeKey ['a'] ['k']) = ['k']) ∧
    (NsCache.has ['a'] (NsCache.write ['b'] [] ['k'] (JSVal.vnum 1) 0 0) ['k'] = false) ∧
    (NsCache.readAll ['a'] (NsCache.write ['b'] [] ['k'] (JSVal.vnum 1) 0 0) = []) ∧
    (NsCache.purge ['a'] (NsCache.write ['b'] [] ['k'] (JSVal.vnum 1) 0 0) = []) :=
  ⟨namespacing_amended.1 ['k'],
   namespacing_amended.2.1 ['a'] ['k'] (by decide),
   namespacing_amended.2.2.1 ['a'] ['k'],
   namespacing_amended.2.2.2.2.1 ['a'] ['b'] ['k'] ['k'] (JSVal.vnum 1) 0 0
     (by decide) (by decide)
     (by decide : ¬ (['a'] ++ ['.']) <+: (['b'] ++ ['.']))
     (by decide : ¬ (['b'] ++ ['.']) <+: (['a'] ++ ['.'])),
   namespacing_amended.2.2.2.2.2.1 ['a'] ['b'] ['k'] (JSVal.vnum 1) 0 0
     (by decide) (by decide)
     (by decide : ¬ (['a'] ++ ['.']) <+: (['b'] ++ ['.']))
     (by decide : ¬ (['b'] ++ ['.']) <+: (['a'] ++ ['.'])),
   namespacing_amended.2.2.2.2.2.2 ['a'] (NsCache.write ['b'] [] ['k'] (JSVal.vnum 1) 0 0)⟩
